import Mathlib

/-!
Verification of the emergency-room congestion dashboard pipeline
(`streamlit_app.py`): data normalization, the congestion metric and label,
coordinate filtering, the fetch error paths, the name filter, and the
top-N ranking.  Numeric cell values are modelled as rationals; a missing
value (pandas NaN / Python None) is modelled as `Option.none`.
-/

namespace ERDash

/-- Round a rational to the nearest integer, ties to even (the rounding used
by numpy/pandas `.round`). -/
def rhe (x : ℚ) : ℤ :=
  if x - (⌊x⌋ : ℚ) < 1/2 then ⌊x⌋
  else if 1/2 < x - (⌊x⌋ : ℚ) then ⌊x⌋ + 1
  else if ⌊x⌋ % 2 = 0 then ⌊x⌋ else ⌊x⌋ + 1

/-- Round to 2 decimal places, as in `.round(2)` on a numeric series cell. -/
def round2 (x : ℚ) : ℚ := ((rhe (x * 100) : ℤ) : ℚ) / 100

/-- A raw cell value as delivered by the API: either something
`pd.to_numeric` can coerce to a number, or a value that fails numeric
coercion. -/
inductive RawVal where
  | num (q : ℚ)
  | junk (s : String)
deriving DecidableEq, Repr

/-- Models `pd.to_numeric(col, errors="coerce")` on one cell: an absent
field or an uncoercible value becomes null (NaN). -/
def toNumericCell : Option RawVal → Option ℚ
  | none => none
  | some (.num q) => some q
  | some (.junk _) => none

/-- One raw API record restricted to the fixed column set `cols` of the
pipeline; a field absent from the record is `none` (the code synthesizes a
null column for a missing field). -/
structure RawRecord where
  dutyName : Option String
  dutyAddr : Option String
  dutyTel3 : Option String
  hvec : Option RawVal
  hvoc : Option RawVal
  wgs84Lat : Option RawVal
  wgs84Lon : Option RawVal
  hvidate : Option String
  dutyTime1s : Option String
  dutyTime1c : Option String
deriving DecidableEq, Repr

/-- A fully processed row of the final dataframe (after numeric coercion
and the derived columns 혼잡도지수, 시도, 혼잡도; `hvidate` renamed to
업데이트/`updatedAt`). -/
structure HospitalRow where
  dutyName : Option String
  dutyAddr : Option String
  dutyTel3 : Option String
  hvec : Option ℚ
  hvoc : Option ℚ
  wgs84Lat : Option ℚ
  wgs84Lon : Option ℚ
  updatedAt : Option String
  dutyTime1s : Option String
  dutyTime1c : Option String
  congestionIndex : Option ℚ
  sido : Option String
  congestionLabel : String
deriving DecidableEq, Repr

/-- Elementwise `fillna`: `s.fillna(d)` on one cell. -/
def fillna (x : Option ℚ) (d : ℚ) : Option ℚ := some (x.getD d)

/-- Elementwise series addition; NaN propagates. -/
def optAdd (a b : Option ℚ) : Option ℚ :=
  match a, b with
  | some x, some y => some (x + y)
  | _, _ => none

/-- Elementwise series division in float64: NaN propagates, and
`0.0 / 0.0` is NaN (null).  A non-zero numerator over a zero denominator
is ±inf in numpy; IEEE infinities have no rational counterpart, so on
that one input class this embedding falls back to total rational
division (`x / 0 = 0`) and no theorem below asserts anything about a
division with a zero denominator except the 0/0-is-null case. -/
def optDiv (a b : Option ℚ) : Option ℚ :=
  match a, b with
  | some x, some y => if x = 0 ∧ y = 0 then none else some (x / y)
  | _, _ => none

/-- Line 87 of the source: 혼잡도지수 = `(hvoc / (hvec.fillna(0) + 1)).round(2)`
on one row. -/
def congestion_index (hvoc hvec : Option ℚ) : Option ℚ :=
  (optDiv hvoc (optAdd (fillna hvec 0) (some 1))).map round2

/-- Python `str.split()` with no argument: split on whitespace runs,
dropping empty pieces. -/
def pyWords (s : String) : List String :=
  (s.split Char.isWhitespace).filter (fun t => t ≠ "")

/-- The source's `get_sido`: first whitespace-delimited token of the
address, or null for a null/blank address. -/
def get_sido (addr : Option String) : Option String :=
  match addr with
  | none => none
  | some s => if s.trim ≠ "" then (pyWords s).head? else none

/-- The source's `label_cong`: congestion label from the congestion index.
정보없음 = UNKNOWN, 여유 = LOW, 보통 = MEDIUM, 혼잡 = HIGH. -/
def label_cong (x : Option ℚ) : String :=
  match x with
  | none => "정보없음"
  | some q => if q < 0.5 then "여유" else if q < 1.0 then "보통" else "혼잡"

/-- Rows 83-108 of the source applied to one record: numeric coercion of
`hvec`, `hvoc`, `wgs84Lat`, `wgs84Lon`, then the derived columns. -/
def processRow (rec : RawRecord) : HospitalRow :=
  let hvec := toNumericCell rec.hvec
  let hvoc := toNumericCell rec.hvoc
  let ci := congestion_index hvoc hvec
  { dutyName := rec.dutyName
    dutyAddr := rec.dutyAddr
    dutyTel3 := rec.dutyTel3
    hvec := hvec
    hvoc := hvoc
    wgs84Lat := toNumericCell rec.wgs84Lat
    wgs84Lon := toNumericCell rec.wgs84Lon
    updatedAt := rec.hvidate
    dutyTime1s := rec.dutyTime1s
    dutyTime1c := rec.dutyTime1c
    congestionIndex := ci
    sido := get_sido rec.dutyAddr
    congestionLabel := label_cong ci }

/-- Whether a processed row has both coordinates (survives the
`dropna(subset=["wgs84Lat", "wgs84Lon"])` of line 111). -/
def hasCoords (r : HospitalRow) : Bool :=
  r.wgs84Lat.isSome && r.wgs84Lon.isSome

/-- Lines 62-112: the whole per-record processing of a successful fetch —
derive every column on every record, then drop the rows without
coordinates. -/
def processRows (items : List RawRecord) : List HospitalRow :=
  (items.map processRow).filter hasCoords

/-- An exception raised by `requests.get` at line 39: either the bounded
wait was exceeded (`requests.exceptions.Timeout`) or the transport failed
(DNS, connection refused, TLS, ...).  `pyStr` is Python `str(e)`: the
exception's message text, which does not encode the exception's class. -/
inductive ReqException where
  | timeout (msg : String)
  | transport (msg : String)
deriving DecidableEq, Repr

/-- Python `str(e)` for a `requests` exception: its message text. -/
def pyStr : ReqException → String
  | .timeout m => m
  | .transport m => m

/-- The nested `js["response"]["body"]["items"]["item"]` lookup chain of
lines 55-57, collapsed: `item` is `none` when any level is absent. -/
structure ItemsShape where
  item : Option (List RawRecord)
deriving DecidableEq, Repr

/-- An HTTP response as observed by the code: status code, body text, and
the result of `r.json()` (`none` models a `ValueError` on parsing). -/
structure HttpResponse where
  status : Nat
  text : String
  jsonBody : Option ItemsShape
deriving DecidableEq, Repr

/-- The outcome of the `requests.get` call: an exception, or a response. -/
inductive ReqResult where
  | exc (e : ReqException)
  | ok (r : HttpResponse)
deriving DecidableEq, Repr

def reqFailMsg (detail : String) : String :=
  "API 요청 자체가 실패했습니다: " ++ detail

def httpFailMsg (code : Nat) (text : String) : String :=
  "API 호출 실패 (HTTP " ++ toString code ++ ")\n응답 내용 일부:\n" ++ text.take 300

def notJsonMsg (text : String) : String :=
  "API 응답이 JSON 형식이 아닙니다.\n응답 내용 일부:\n" ++ text.take 300

def emptyItemsMsg : String :=
  "API 응답은 성공했지만 \x27item\x27 데이터가 비어 있습니다."

/-- The source's `fetch_data` (lines 23-112) as a function of the network
outcome: returns `(df, None)` on success and `(None, error message)` on
any failure. -/
def fetch_data (req : ReqResult) : Option (List HospitalRow) × Option String :=
  match req with
  | .exc e => (none, some (reqFailMsg (pyStr e)))
  | .ok r =>
    if r.status ≠ 200 then (none, some (httpFailMsg r.status r.text))
    else
      match r.jsonBody with
      | none => (none, some (notJsonMsg r.text))
      | some js =>
        match js.item with
        | none => (none, some emptyItemsMsg)
        | some [] => (none, some emptyItemsMsg)
        | some items => (some (processRows items), none)

/-- What the caller renders from the fetch result (lines 129-136): a
terminal error, the empty-data warning, or the dashboard over the rows. -/
inductive Display where
  | errorStop (msg : String)
  | emptyWarnStop
  | dashboard (rows : List HospitalRow)
deriving DecidableEq, Repr

/-- Lines 129-136: `if err: st.error(err); st.stop()`, then
`if df is None or df.empty: st.warning(...); st.stop()`. -/
def render (res : Option (List HospitalRow) × Option String) : Display :=
  match res.2 with
  | some e => .errorStop e
  | none =>
    match res.1 with
    | none => .emptyWarnStop
    | some [] => .emptyWarnStop
    | some rows => .dashboard rows

/-- Whether the network outcome is a fetch-stage failure: an exception, a
non-200 status, an unparseable JSON body, or an absent/empty item list. -/
def isFetchFailure (req : ReqResult) : Bool :=
  match req with
  | .exc _ => true
  | .ok r =>
    if r.status ≠ 200 then true
    else
      match r.jsonBody with
      | none => true
      | some js =>
        match js.item with
        | none => true
        | some [] => true
        | some (_ :: _) => false

/-- One character position of Python `re` matching with `re.IGNORECASE`,
restricted to the pattern fragment the app can produce meaningfully:
a literal character, or the `.` wildcard which matches any character. -/
def charMatch (p c : Char) : Bool :=
  p == '.' || p.toLower == c.toLower

/-- Regex match of the whole pattern at the start of the text. -/
def reHere : List Char → List Char → Bool
  | [], _ => true
  | _ :: _, [] => false
  | p :: ps, c :: cs => charMatch p c && reHere ps cs

/-- Python `re.search` with `re.IGNORECASE`: the pattern matches at some
position of the text. -/
def reSearch : List Char → List Char → Bool
  | pat, [] => reHere pat []
  | pat, c :: cs => reHere pat (c :: cs) || reSearch pat cs

/-- Models `Series.str.contains(pat, case=False, na=False)` on one cell:
pandas keeps the default `regex=True`, so the query is a regular
expression, matched case-insensitively via `re.search`. -/
def strContainsRegexCI (pat s : String) : Bool :=
  reSearch pat.data s.data

/-- Case-insensitive literal match of the whole query at the start of the
text. -/
def litHere : List Char → List Char → Bool
  | [], _ => true
  | _ :: _, [] => false
  | p :: ps, c :: cs => (p.toLower == c.toLower) && litHere ps cs

/-- Case-insensitive literal search of the query at some position. -/
def litSearch : List Char → List Char → Bool
  | pat, [] => litHere pat []
  | pat, c :: cs => litHere pat (c :: cs) || litSearch pat cs

/-- Modelled from the spec: case-insensitive substring containment
(`q` occurs literally inside `s`, ignoring case). -/
def substrCI (q s : String) : Bool :=
  litSearch q.data s.data

/-- The characters that are special in Python regular expressions. -/
def pyRegexMeta : List Char :=
  ['.', '^', '$', '*', '+', '?', '\x7b', '\x7d', '[', ']', '(', ')', '|', '\\']

/-- Lines 175-176 of the source: the name filter.  An empty query is falsy,
so the filter is skipped; otherwise
`df_f[df_f["dutyName"].str.contains(name_query, case=False, na=False)]`. -/
def name_filter (q : String) (rows : List HospitalRow) : List HospitalRow :=
  if q = "" then rows
  else rows.filter (fun r =>
    match r.dutyName with
    | none => false
    | some n => strContainsRegexCI q n)

/-- A row of `df_f` after the distance step (lines 181-189): the hospital
row plus the 거리_km column, null when no reference location was given. -/
structure RankedRow where
  row : HospitalRow
  distKm : Option ℚ
deriving DecidableEq, Repr

/-- Comparison of two cells of a sort key column under
`na_position="last"`: null compares greater than every number. -/
def cmpNaLast : Option ℚ → Option ℚ → Ordering
  | none, none => .eq
  | none, some _ => .gt
  | some _, none => .lt
  | some x, some y => compare x y

/-- The lexicographic "comes no later than" relation of
`sort_values(["혼잡도지수", "거리_km"], na_position="last")`:
first key 혼잡도지수, ties broken by 거리_km, nulls last in each key. -/
def leRank (a b : RankedRow) : Bool :=
  match cmpNaLast a.row.congestionIndex b.row.congestionIndex with
  | .lt => true
  | .gt => false
  | .eq =>
    match cmpNaLast a.distKm b.distKm with
    | .gt => false
    | _ => true

/-- Propositional form of `leRank`. -/
def RankLE (a b : RankedRow) : Prop := leRank a b = true

instance : DecidableRel RankLE :=
  fun a b => inferInstanceAs (Decidable (leRank a b = true))

/-- The ranking sort of lines 196-199, as the stable sort pandas performs
(multi-column `sort_values` sorts with `numpy.lexsort`, which is stable). -/
def sortRank (l : List RankedRow) : List RankedRow :=
  List.insertionSort RankLE l

/-- Line 199: the recommended TOP 5 view takes the first five sorted rows. -/
def df_rank (l : List RankedRow) : List RankedRow :=
  (sortRank l).take 5

/-- The sort key pair of a ranked row. -/
def rankKey (r : RankedRow) : Option ℚ × Option ℚ :=
  (r.row.congestionIndex, r.distKm)

/-- Modelled from the spec:
`congestion_index = round(occupied_patients / (coalesce(available_beds, 0) + 1), 2)`,
null exactly when `occupied_patients` is null. -/
def spec_congestion_index (occ beds : Option ℚ) : Option ℚ :=
  match occ with
  | none => none
  | some o => some (round2 (o / (beds.getD 0 + 1)))

/-- Modelled from the spec's threshold table (§4.3): null → UNKNOWN
(정보없음), `x < 0.5` → LOW (여유), `0.5 ≤ x < 1.0` → MEDIUM (보통),
`x ≥ 1.0` → HIGH (혼잡). -/
def spec_label (x : Option ℚ) : String :=
  match x with
  | none => "정보없음"
  | some q => if q < 1/2 then "여유"
    else if 1/2 ≤ q ∧ q < 1 then "보통" else "혼잡"

/-- A concrete raw record: one occupied patient, three available beds,
valid coordinates. -/
def recW : RawRecord :=
  { dutyName := some "A요양병원"
    dutyAddr := some "서울특별시 중구 을지로 1"
    dutyTel3 := none
    hvec := some (.num 3)
    hvoc := some (.num 1)
    wgs84Lat := some (.num (375/10))
    wgs84Lon := some (.num 127)
    hvidate := none
    dutyTime1s := none
    dutyTime1c := none }

/-- A raw record with an occupied-patients count but no parseable
coordinates. -/
def recNC : RawRecord :=
  { dutyName := some "B병원"
    dutyAddr := none
    dutyTel3 := none
    hvec := none
    hvoc := some (.num 2)
    wgs84Lat := some (.junk "N/A")
    wgs84Lon := none
    hvidate := none
    dutyTime1s := none
    dutyTime1c := none }

/-- A raw record with zero occupied patients and an available-bed count
of -1 (the API does report negative bed counts for over-occupied ERs, and
`pd.to_numeric` applies no clamp), so line 87 divides 0.0 by 0.0. -/
def recZ : RawRecord :=
  { dutyName := some "C의료원"
    dutyAddr := none
    dutyTel3 := none
    hvec := some (.num (-1))
    hvoc := some (.num 0)
    wgs84Lat := some (.num 36)
    wgs84Lon := some (.num 128)
    hvidate := none
    dutyTime1s := none
    dutyTime1c := none }

/-- A fetch outcome: the server answered HTTP 500 with a non-JSON body. -/
def http500 : ReqResult :=
  .ok { status := 500, text := "Internal Server Error", jsonBody := none }

/-- Two concrete ranked rows with the same distance. -/
def rrA : RankedRow := ⟨processRow recW, some 3⟩

def rrB : RankedRow := ⟨processRow recNC, some 3⟩

/-- A processed row whose hospital name is "abc". -/
def rowAbc : HospitalRow :=
  processRow
    { dutyName := some "abc"
      dutyAddr := none
      dutyTel3 := none
      hvec := none
      hvoc := none
      wgs84Lat := none
      wgs84Lon := none
      hvidate := none
      dutyTime1s := none
      dutyTime1c := none }

lemma cmpNaLast_self (a : Option ℚ) : cmpNaLast a a = .eq := by
  cases a <;> simp [cmpNaLast, compare_eq_iff_eq]

lemma cmpNaLast_eq_iff {a b : Option ℚ} : cmpNaLast a b = .eq ↔ a = b := by
  cases a <;> cases b <;> simp [cmpNaLast, compare_eq_iff_eq]

lemma cmpNaLast_lt_iff_gt {a b : Option ℚ} :
    cmpNaLast a b = .lt ↔ cmpNaLast b a = .gt := by
  cases a <;> cases b <;>
    simp [cmpNaLast, compare_lt_iff_lt, compare_gt_iff_gt, gt_iff_lt]

lemma cmpNaLast_lt_trans {a b c : Option ℚ} (hab : cmpNaLast a b = .lt)
    (hbc : cmpNaLast b c = .lt) : cmpNaLast a c = .lt := by
  cases a <;> cases b <;> cases c <;>
    simp_all [cmpNaLast, compare_lt_iff_lt]
  linarith

lemma cmpNaLast_ne_gt_iff {a b : Option ℚ} :
    cmpNaLast a b ≠ .gt ↔ cmpNaLast a b = .lt ∨ a = b := by
  rcases h : cmpNaLast a b with _ | _ | _
  · simp
  · have hab : a = b := cmpNaLast_eq_iff.mp h
    simp [hab]
  · constructor
    · intro hne; exact absurd rfl hne
    · rintro (hlt | heq)
      · exact absurd hlt (by simp)
      · rw [heq, cmpNaLast_self] at h; cases h

lemma leRank_iff {a b : RankedRow} :
    RankLE a b ↔ cmpNaLast a.row.congestionIndex b.row.congestionIndex = .lt ∨
      (a.row.congestionIndex = b.row.congestionIndex ∧
        cmpNaLast a.distKm b.distKm ≠ .gt) := by
  unfold RankLE leRank
  rcases h1 : cmpNaLast a.row.congestionIndex b.row.congestionIndex with _ | _ | _
  · simp
  · have he : a.row.congestionIndex = b.row.congestionIndex := cmpNaLast_eq_iff.mp h1
    rcases h2 : cmpNaLast a.distKm b.distKm with _ | _ | _ <;> simp_all
  · simp only [Bool.false_eq_true, false_iff]
    rintro (hlt | ⟨he, -⟩)
    · cases hlt
    · rw [he, cmpNaLast_self] at h1; cases h1

lemma rankLE_total (a b : RankedRow) : RankLE a b ∨ RankLE b a := by
  rcases h1 : cmpNaLast a.row.congestionIndex b.row.congestionIndex with _ | _ | _
  · exact Or.inl (leRank_iff.mpr (Or.inl h1))
  · have he : a.row.congestionIndex = b.row.congestionIndex := cmpNaLast_eq_iff.mp h1
    rcases h2 : cmpNaLast a.distKm b.distKm with _ | _ | _
    · exact Or.inl (leRank_iff.mpr (Or.inr ⟨he, by simp [h2]⟩))
    · exact Or.inl (leRank_iff.mpr (Or.inr ⟨he, by simp [h2]⟩))
    · refine Or.inr (leRank_iff.mpr (Or.inr ⟨he.symm, ?_⟩))
      have : cmpNaLast b.distKm a.distKm = .lt := cmpNaLast_lt_iff_gt.mpr h2
      simp [this]
  · refine Or.inr (leRank_iff.mpr (Or.inl ?_))
    exact cmpNaLast_lt_iff_gt.mpr h1

lemma rankLE_trans (a b c : RankedRow) (hab : RankLE a b) (hbc : RankLE b c) :
    RankLE a c := by
  rcases leRank_iff.mp hab with h1 | ⟨he1, hd1⟩
  · rcases leRank_iff.mp hbc with h2 | ⟨he2, -⟩
    · exact leRank_iff.mpr (Or.inl (cmpNaLast_lt_trans h1 h2))
    · exact leRank_iff.mpr (Or.inl (he2 ▸ h1))
  · rcases leRank_iff.mp hbc with h2 | ⟨he2, hd2⟩
    · exact leRank_iff.mpr (Or.inl (he1 ▸ h2))
    · refine leRank_iff.mpr (Or.inr ⟨he1.trans he2, ?_⟩)
      rcases cmpNaLast_ne_gt_iff.mp hd1 with hlt1 | heq1
      · rcases cmpNaLast_ne_gt_iff.mp hd2 with hlt2 | heq2
        · exact cmpNaLast_ne_gt_iff.mpr (Or.inl (cmpNaLast_lt_trans hlt1 hlt2))
        · exact cmpNaLast_ne_gt_iff.mpr (Or.inl (heq2 ▸ hlt1))
      · rcases cmpNaLast_ne_gt_iff.mp hd2 with hlt2 | heq2
        · exact cmpNaLast_ne_gt_iff.mpr (Or.inl (heq1 ▸ hlt2))
        · exact cmpNaLast_ne_gt_iff.mpr (Or.inr (heq1.trans heq2))

lemma leRank_of_key_eq {a b : RankedRow} (h : rankKey a = rankKey b) :
    RankLE a b := by
  have h1 : a.row.congestionIndex = b.row.congestionIndex := congrArg Prod.fst h
  have h2 : a.distKm = b.distKm := congrArg Prod.snd h
  refine leRank_iff.mpr (Or.inr ⟨h1, ?_⟩)
  rw [h2, cmpNaLast_self]
  simp

lemma leRank_null_last {a b : RankedRow} (h : RankLE a b) :
    (a.row.congestionIndex = none → b.row.congestionIndex = none) ∧
      (a.row.congestionIndex = b.row.congestionIndex →
        a.distKm = none → b.distKm = none) := by
  rcases leRank_iff.mp h with h1 | ⟨he, hd⟩
  · constructor
    · intro hna
      rw [hna] at h1
      rcases hb : b.row.congestionIndex with _ | q
      · rfl
      · rw [hb] at h1
        simp [cmpNaLast] at h1
    · intro he
      rw [he, cmpNaLast_self] at h1; cases h1
  · constructor
    · intro hna; exact he ▸ hna
    · intro _ hda
      rw [hda] at hd
      rcases hb : b.distKm with _ | q
      · rfl
      · rw [hb] at hd; simp [cmpNaLast] at hd

lemma filter_key_orderedInsert_of_eq (k : Option ℚ × Option ℚ) (a : RankedRow)
    (ha : rankKey a = k) : ∀ l : List RankedRow,
    (List.orderedInsert RankLE a l).filter (fun r => decide (rankKey r = k)) =
      a :: l.filter (fun r => decide (rankKey r = k))
  | [] => by simp [ha]
  | b :: l => by
    simp only [List.orderedInsert]
    split_ifs with hab
    · simp [List.filter_cons, ha]
    · have hbk : ¬rankKey b = k := fun hbk =>
        hab (leRank_of_key_eq (ha.trans hbk.symm))
      simp [List.filter_cons, hbk, filter_key_orderedInsert_of_eq k a ha l]

lemma filter_key_orderedInsert_of_ne (k : Option ℚ × Option ℚ) (a : RankedRow)
    (ha : ¬rankKey a = k) : ∀ l : List RankedRow,
    (List.orderedInsert RankLE a l).filter (fun r => decide (rankKey r = k)) =
      l.filter (fun r => decide (rankKey r = k))
  | [] => by simp [ha]
  | b :: l => by
    simp only [List.orderedInsert]
    split_ifs with hab
    · simp [List.filter_cons, ha]
    · simp [List.filter_cons, filter_key_orderedInsert_of_ne k a ha l]

lemma filter_key_sortRank (k : Option ℚ × Option ℚ) : ∀ l : List RankedRow,
    (sortRank l).filter (fun r => decide (rankKey r = k)) =
      l.filter (fun r => decide (rankKey r = k))
  | [] => rfl
  | a :: l => by
    have hrec : sortRank (a :: l) = List.orderedInsert RankLE a (sortRank l) := rfl
    rw [hrec]
    by_cases ha : rankKey a = k
    · rw [filter_key_orderedInsert_of_eq k a ha, filter_key_sortRank k l]
      simp [List.filter_cons, ha]
    · rw [filter_key_orderedInsert_of_ne k a ha, filter_key_sortRank k l]
      simp [List.filter_cons, ha]

lemma rhe_nonneg {x : ℚ} (hx : 0 ≤ x) : 0 ≤ rhe x := by
  unfold rhe
  have hf : (0 : ℤ) ≤ ⌊x⌋ := Int.floor_nonneg.mpr hx
  split_ifs <;> omega

lemma round2_nonneg {x : ℚ} (hx : 0 ≤ x) : 0 ≤ round2 x := by
  unfold round2
  have h : 0 ≤ rhe (x * 100) := rhe_nonneg (by positivity)
  have h' : (0 : ℚ) ≤ ((rhe (x * 100) : ℤ) : ℚ) := by exact_mod_cast h
  exact div_nonneg h' (by norm_num)

lemma reHere_eq_litHere : ∀ (pat t : List Char), (∀ c ∈ pat, c ≠ '.') →
    reHere pat t = litHere pat t
  | [], _, _ => rfl
  | _ :: _, [], _ => rfl
  | p :: ps, c :: cs, h => by
    have hp : (p == '.') = false := by
      simpa using h p (List.mem_cons_self p ps)
    rw [reHere, litHere, charMatch, hp, Bool.false_or,
      reHere_eq_litHere ps cs (fun d hd => h d (List.mem_cons_of_mem p hd))]

lemma reSearch_eq_litSearch : ∀ (pat t : List Char), (∀ c ∈ pat, c ≠ '.') →
    reSearch pat t = litSearch pat t
  | pat, [], h => by rw [reSearch, litSearch, reHere_eq_litHere pat [] h]
  | pat, c :: cs, h => by
    rw [reSearch, litSearch, reHere_eq_litHere pat (c :: cs) h,
      reSearch_eq_litSearch pat cs h]

lemma litHere_iff : ∀ (pat t : List Char),
    litHere pat t = true ↔
      ∃ r, t.map Char.toLower = pat.map Char.toLower ++ r
  | [], t => by simp [litHere]
  | p :: ps, [] => by simp [litHere]
  | p :: ps, c :: cs => by
    rw [litHere]
    simp only [Bool.and_eq_true, beq_iff_eq, List.map_cons, List.cons_append,
      List.cons.injEq]
    constructor
    · rintro ⟨hpc, h⟩
      obtain ⟨r, hr⟩ := (litHere_iff ps cs).mp h
      exact ⟨r, hpc.symm, hr⟩
    · rintro ⟨r, hcp, hr⟩
      exact ⟨hcp.symm, (litHere_iff ps cs).mpr ⟨r, hr⟩⟩

lemma litSearch_iff : ∀ (pat t : List Char),
    litSearch pat t = true ↔
      ∃ pre post, t.map Char.toLower = pre ++ pat.map Char.toLower ++ post
  | pat, [] => by
    rw [litSearch]
    constructor
    · intro h
      obtain ⟨r, hr⟩ := (litHere_iff pat []).mp h
      exact ⟨[], r, by simpa using hr⟩
    · rintro ⟨pre, post, h⟩
      refine (litHere_iff pat []).mpr ⟨post, ?_⟩
      simp only [List.map_nil] at h ⊢
      have h1 := List.append_eq_nil.mp h.symm
      have h2 := List.append_eq_nil.mp h1.1
      rw [h2.2, h1.2]
      rfl
  | pat, c :: cs => by
    rw [litSearch, Bool.or_eq_true]
    constructor
    · rintro (h | h)
      · obtain ⟨r, hr⟩ := (litHere_iff pat (c :: cs)).mp h
        exact ⟨[], r, by simpa using hr⟩
      · obtain ⟨pre, post, h⟩ := (litSearch_iff pat cs).mp h
        exact ⟨c.toLower :: pre, post, by simp [h]⟩
    · rintro ⟨pre, post, h⟩
      rcases pre with _ | ⟨p, pre'⟩
      · exact Or.inl ((litHere_iff pat (c :: cs)).mpr ⟨post, by simpa using h⟩)
      · simp only [List.map_cons, List.cons_append, List.cons.injEq] at h
        exact Or.inr ((litSearch_iff pat cs).mpr ⟨pre', post, h.2⟩)

lemma half_lit : (0.5 : ℚ) = 1/2 := by norm_num

lemma one_lit : (1.0 : ℚ) = 1 := by norm_num

lemma round2_int {x : ℚ} {n : ℤ} (h : x * 100 = (n : ℚ)) :
    round2 x = (n : ℚ) / 100 := by
  unfold round2 rhe
  rw [h, Int.floor_intCast]
  norm_num

/-- C1 counterexample: at the reachable input `hvoc = "0"`,
`hvec = "-1"`, line 87 computes `0.0 / (-1.0 + 1.0) = 0.0 / 0.0 = NaN`,
so the congestion index is null while `occupied_patients` is non-null —
the claimed "null if and only if occupied_patients is null" fails. -/
theorem c1_nan_on_zero_denominator :
    (processRow recZ).congestionIndex = none ∧
    (processRow recZ).hvoc = some 0 ∧
    ¬((processRow recZ).congestionIndex = none ↔
      (processRow recZ).hvoc = none) := by
  have hnan : (processRow recZ).congestionIndex = none := by
    have h1 : (processRow recZ).congestionIndex =
        Option.map round2 (if (0 : ℚ) = 0 ∧ (-1 : ℚ) + 1 = 0 then none
          else some (0 / ((-1 : ℚ) + 1))) := rfl
    rw [h1, if_pos ⟨rfl, by norm_num⟩]
    rfl
  refine ⟨hnan, rfl, ?_⟩
  intro h
  have h0 : some (0 : ℚ) = none := h.mp hnan
  cases h0

/-- C1 (amended): for every normalized row whose effective denominator
`coalesce(available_beds, 0) + 1` is non-zero, `congestion_index` equals
`round(occupied_patients / (coalesce(available_beds, 0) + 1), 2)` and is
null if and only if `occupied_patients` is null (null propagates, it is
not replaced by zero); when the effective denominator is zero and
`occupied_patients` is 0, the division is `0.0 / 0.0 = NaN`, so
`congestion_index` is null despite a non-null `occupied_patients`. -/
theorem c1_congestion_index_formula (rec : RawRecord) :
    ((processRow rec).hvec.getD 0 + 1 ≠ 0 →
      (processRow rec).congestionIndex =
        spec_congestion_index (processRow rec).hvoc (processRow rec).hvec ∧
      ((processRow rec).congestionIndex = none ↔
        (processRow rec).hvoc = none)) ∧
    ((processRow rec).hvec.getD 0 + 1 = 0 → (processRow rec).hvoc = some 0 →
      (processRow rec).congestionIndex = none) := by
  have hci : (processRow rec).congestionIndex =
      congestion_index (toNumericCell rec.hvoc) (toNumericCell rec.hvec) := rfl
  have ho : (processRow rec).hvoc = toNumericCell rec.hvoc := rfl
  have hb : (processRow rec).hvec = toNumericCell rec.hvec := rfl
  rw [hci, ho, hb]
  constructor
  · intro hden
    rcases hvo : toNumericCell rec.hvoc with _ | o
    · rcases hvb : toNumericCell rec.hvec with _ | b <;>
        simp [congestion_index, spec_congestion_index, optDiv, optAdd, fillna]
    · rcases hvb : toNumericCell rec.hvec with _ | b
      · simp [congestion_index, spec_congestion_index, optDiv, optAdd, fillna]
      · rw [hvb] at hden
        simp only [Option.getD_some] at hden
        simp [congestion_index, spec_congestion_index, optDiv, optAdd,
          fillna, hden]
  · intro hden h0
    rw [h0]
    rcases hvb : toNumericCell rec.hvec with _ | b
    · rw [hvb] at hden
      norm_num at hden
    · rw [hvb] at hden
      simp only [Option.getD_some] at hden
      simp [congestion_index, optDiv, optAdd, fillna, hden]

theorem c1_congestion_index_formula_witness :
    (processRow recW).congestionIndex =
      spec_congestion_index (processRow recW).hvoc (processRow recW).hvec :=
  ((c1_congestion_index_formula recW).1
    (show (3 : ℚ) + 1 ≠ 0 by norm_num)).1

/-- C2: the congestion label is a deterministic, pure function of
`congestion_index`: null maps to UNKNOWN (정보없음), `x < 0.5` to LOW
(여유), `0.5 ≤ x < 1.0` to MEDIUM (보통), and `x ≥ 1.0` to HIGH (혼잡);
in particular the inputs null, 0.0, 0.49, 0.5, 0.99, 1.0, 5.0 yield
UNKNOWN, LOW, LOW, MEDIUM, MEDIUM, HIGH, HIGH. -/
theorem c2_label_thresholds :
    (∀ x : Option ℚ, label_cong x = spec_label x) ∧
    label_cong none = "정보없음" ∧
    label_cong (some 0) = "여유" ∧
    label_cong (some (49/100)) = "여유" ∧
    label_cong (some (1/2)) = "보통" ∧
    label_cong (some (99/100)) = "보통" ∧
    label_cong (some 1) = "혼잡" ∧
    label_cong (some 5) = "혼잡" := by
  refine ⟨?_, rfl, by norm_num [label_cong], by norm_num [label_cong],
    by norm_num [label_cong], by norm_num [label_cong],
    by norm_num [label_cong], by norm_num [label_cong]⟩
  intro x
  rcases x with _ | q
  · rfl
  · simp only [label_cong, spec_label, half_lit, one_lit]
    split_ifs with h1 h2 h3 h4
    · rfl
    · rfl
    · exact absurd ⟨le_of_not_lt h1, h2⟩ h3
    · exact absurd h4.2 h2
    · rfl

/-- C3: for every row whose `occupied_patients` and `available_beds` are
non-negative when present (the data-model precondition), the computed
`congestion_index` is never negative whenever it is non-null. -/
theorem c3_congestion_index_nonneg (rec : RawRecord)
    (hvoc : ∀ x, (processRow rec).hvoc = some x → 0 ≤ x)
    (hvec : ∀ x, (processRow rec).hvec = some x → 0 ≤ x) :
    ∀ q, (processRow rec).congestionIndex = some q → 0 ≤ q := by
  intro q hq
  have hci : (processRow rec).congestionIndex =
      congestion_index (toNumericCell rec.hvoc) (toNumericCell rec.hvec) := rfl
  rw [hci] at hq
  rcases ho : toNumericCell rec.hvoc with _ | o
  · rw [ho] at hq
    simp [congestion_index, optDiv, optAdd, fillna] at hq
  · have h0 : 0 ≤ o := hvoc o ho
    rcases hb : toNumericCell rec.hvec with _ | b
    · rw [ho, hb] at hq
      rw [show congestion_index (some o) none =
          Option.map round2 (if o = 0 ∧ (0 : ℚ) + 1 = 0 then none
            else some (o / (0 + 1))) from rfl] at hq
      rw [if_neg (by norm_num)] at hq
      simp only [Option.map_some', Option.some.injEq] at hq
      rw [← hq]
      exact round2_nonneg (div_nonneg h0 (by norm_num))
    · have hb0 : 0 ≤ b := hvec b hb
      rw [ho, hb] at hq
      rw [show congestion_index (some o) (some b) =
          Option.map round2 (if o = 0 ∧ b + 1 = 0 then none
            else some (o / (b + 1))) from rfl] at hq
      rw [if_neg (by rintro ⟨-, hcon⟩; linarith)] at hq
      simp only [Option.map_some', Option.some.injEq] at hq
      rw [← hq]
      exact round2_nonneg (div_nonneg h0 (by linarith))

theorem c3_congestion_index_nonneg_witness : 0 ≤ (1/4 : ℚ) := by
  refine c3_congestion_index_nonneg recW ?_ ?_ (1/4) ?_
  · intro x hx
    have h1 : (processRow recW).hvoc = some (1 : ℚ) := rfl
    rw [h1] at hx
    rw [← Option.some.inj hx]
    norm_num
  · intro x hx
    have h3 : (processRow recW).hvec = some (3 : ℚ) := rfl
    rw [h3] at hx
    rw [← Option.some.inj hx]
    norm_num
  · have h : (processRow recW).congestionIndex =
        some (round2 (1 / ((3 : ℚ) + 1))) := rfl
    rw [h, round2_int (show (1 / ((3 : ℚ) + 1)) * 100 = ((25 : ℤ) : ℚ) by
      norm_num)]
    norm_num

/-- C4: every row in the final dataset returned by the pipeline has
non-null latitude and longitude; rows lacking coordinates are removed
only after `congestion_index`, `congestion_label` and region have been
derived (the final set is the fully derived row list filtered on
coordinates), and every derived row that has coordinates is retained
regardless of other missing fields. -/
theorem c4_coordinates_mandatory (items : List RawRecord) (inp : ReqResult)
    (rows : List HospitalRow) :
    (∀ r ∈ processRows items, r.wgs84Lat.isSome ∧ r.wgs84Lon.isSome) ∧
    processRows items = (items.map processRow).filter hasCoords ∧
    (∀ rec ∈ items, hasCoords (processRow rec) = true →
      processRow rec ∈ processRows items) ∧
    ((fetch_data inp).1 = some rows →
      ∀ r ∈ rows, r.wgs84Lat.isSome ∧ r.wgs84Lon.isSome) := by
  have key : ∀ (its : List RawRecord), ∀ r ∈ processRows its,
      r.wgs84Lat.isSome ∧ r.wgs84Lon.isSome := by
    intro its r hr
    have h := (List.mem_filter.mp hr).2
    simpa [hasCoords] using h
  refine ⟨key items, rfl, ?_, ?_⟩
  · intro rec hrec hco
    exact List.mem_filter.mpr ⟨List.mem_map_of_mem processRow hrec, hco⟩
  · intro hsome r hr
    cases inp with
    | exc e => simp [fetch_data] at hsome
    | ok resp =>
      by_cases hs : resp.status = 200
      · rcases hj : resp.jsonBody with _ | js
        · simp [fetch_data, hs, hj] at hsome
        · rcases hi : js.item with _ | il
          · simp [fetch_data, hs, hj, hi] at hsome
          · rcases il with _ | ⟨a, l⟩
            · simp [fetch_data, hs, hj, hi] at hsome
            · have hrows : rows = processRows (a :: l) := by
                simp [fetch_data, hs, hj, hi] at hsome
                exact hsome.symm
              exact key (a :: l) r (hrows ▸ hr)
      · simp [fetch_data, hs] at hsome

theorem c4_coordinates_mandatory_witness :
    processRow recW ∈ processRows [recW] :=
  (c4_coordinates_mandatory [recW] (.exc (.timeout "t")) []).2.2.1 recW
    (List.mem_singleton.mpr rfl) rfl

/-- C8: when any fetch-stage failure occurs (transport/timeout exception,
non-success HTTP status, unparseable JSON, or absent/empty item list),
no dataset is produced: the fetch result carries an error message and no
rows, and the caller shows the terminal error instead of any data. -/
theorem c8_fetch_failure_no_dataset (inp : ReqResult)
    (h : isFetchFailure inp = true) :
    (fetch_data inp).1 = none ∧
    ∃ m, (fetch_data inp).2 = some m ∧
      render (fetch_data inp) = Display.errorStop m := by
  have finish : ∀ m, fetch_data inp = (none, some m) →
      (fetch_data inp).1 = none ∧
      ∃ m', (fetch_data inp).2 = some m' ∧
        render (fetch_data inp) = Display.errorStop m' := by
    intro m hm
    rw [hm]
    exact ⟨rfl, m, rfl, rfl⟩
  cases inp with
  | exc e => exact finish (reqFailMsg (pyStr e)) rfl
  | ok resp =>
    by_cases hs : resp.status = 200
    · rcases hj : resp.jsonBody with _ | js
      · exact finish (notJsonMsg resp.text) (by simp [fetch_data, hs, hj])
      · rcases hi : js.item with _ | il
        · exact finish emptyItemsMsg (by simp [fetch_data, hs, hj, hi])
        · rcases il with _ | ⟨a, l⟩
          · exact finish emptyItemsMsg (by simp [fetch_data, hs, hj, hi])
          · exfalso
            simp [isFetchFailure, hs, hj, hi] at h
    · exact finish (httpFailMsg resp.status resp.text) (by simp [fetch_data, hs])

theorem c8_fetch_failure_no_dataset_witness :
    (fetch_data http500).1 = none ∧
    ∃ m, (fetch_data http500).2 = some m ∧
      render (fetch_data http500) = Display.errorStop m :=
  c8_fetch_failure_no_dataset http500 rfl

/-- C9 (implicit): every call to the fetch pipeline returns exactly one
of a dataset or an error — the result pair has exactly one non-null
component, never both and never neither. -/
theorem c9_exactly_one_component (inp : ReqResult) :
    ((fetch_data inp).1.isSome ∧ (fetch_data inp).2 = none) ∨
    ((fetch_data inp).1 = none ∧ (fetch_data inp).2.isSome) := by
  cases inp with
  | exc e => exact Or.inr ⟨rfl, rfl⟩
  | ok resp =>
    by_cases hs : resp.status = 200
    · rcases hj : resp.jsonBody with _ | js
      · exact Or.inr (by simp [fetch_data, hs, hj])
      · rcases hi : js.item with _ | il
        · exact Or.inr (by simp [fetch_data, hs, hj, hi])
        · rcases il with _ | ⟨a, l⟩
          · exact Or.inr (by simp [fetch_data, hs, hj, hi])
          · exact Or.inl (by simp [fetch_data, hs, hj, hi])
    · exact Or.inr (by simp [fetch_data, hs])

theorem c9_exactly_one_component_witness :
    ((fetch_data http500).1.isSome ∧ (fetch_data http500).2 = none) ∨
    ((fetch_data http500).1 = none ∧ (fetch_data http500).2.isSome) :=
  c9_exactly_one_component http500

/-- C10 (implicit): a fetch whose raw item list is non-empty but in which
every record lacks parseable coordinates succeeds with an empty dataset
rather than returning the empty-result error; the empty-result error is
raised exactly when the raw item list is absent or empty. -/
theorem c10_empty_dataset_vs_empty_error (items : List RawRecord)
    (t : String) (il : Option (List RawRecord)) :
    (items ≠ [] → (∀ rec ∈ items, hasCoords (processRow rec) = false) →
      fetch_data (.ok ⟨200, t, some ⟨some items⟩⟩) = (some [], none)) ∧
    ((fetch_data (.ok ⟨200, t, some ⟨il⟩⟩)).2 = some emptyItemsMsg ↔
      il = none ∨ il = some []) := by
  constructor
  · intro hne hall
    rcases items with _ | ⟨a, l⟩
    · exact absurd rfl hne
    · have hempty : processRows (a :: l) = [] := by
        refine List.filter_eq_nil_iff.mpr ?_
        intro r hr
        obtain ⟨rec, hrec, hr'⟩ := List.mem_map.mp hr
        rw [← hr']
        simp [hall rec hrec]
      simp [fetch_data, hempty]
  · rcases il with _ | il'
    · simp [fetch_data]
    · rcases il' with _ | ⟨a, l⟩
      · simp [fetch_data]
      · simp [fetch_data]

theorem c10_empty_dataset_vs_empty_error_witness :
    fetch_data (.ok ⟨200, "", some ⟨some [recNC]⟩⟩) = (some [], none) :=
  (c10_empty_dataset_vs_empty_error [recNC] "" (some [])).1
    (by simp)
    (fun rec h => by rw [List.mem_singleton.mp h]; rfl)

/-- C5 counterexample: a timeout and a transport failure with the same
exception text produce identical fetch results — the two distinct failure
kinds are not distinguishable in the returned result, contradicting the
claimed `FetchError::Timeout` / `FetchError::Transport` distinction. -/
theorem c5_timeout_transport_conflated :
    fetch_data (.exc (.timeout "boom")) = fetch_data (.exc (.transport "boom")) ∧
    ReqException.timeout "boom" ≠ ReqException.transport "boom" :=
  ⟨rfl, fun h => ReqException.noConfusion h⟩

/-- C5 (amended): both exceeding the bounded wait and any transport
failure are caught by the same handler and yield the one request-failure
error message built from the exception's own text; the result does not
otherwise distinguish the two failure kinds. -/
theorem c5_request_failure_uniform (e : ReqException) :
    fetch_data (.exc e) = (none, some (reqFailMsg (pyStr e))) ∧
    (∀ e' : ReqException, pyStr e' = pyStr e →
      fetch_data (.exc e') = fetch_data (.exc e)) := by
  refine ⟨rfl, ?_⟩
  intro e' h
  simp [fetch_data, h]

theorem c5_request_failure_uniform_witness :
    fetch_data (.exc (.transport "x")) = fetch_data (.exc (.timeout "x")) :=
  (c5_request_failure_uniform (.timeout "x")).2 (.transport "x") rfl

/-- C6: the top-N ranking (N = 5) takes the head of the rows sorted
ascending by the key pair (혼잡도지수, 거리_km) with nulls placed after
all non-null values for each key, and the sort is stable: filtering the
sorted list to any fixed key pair returns those rows in their pre-sort
relative order. -/
theorem c6_ranking_sort (l : List RankedRow) :
    df_rank l = (sortRank l).take 5 ∧
    List.Perm (sortRank l) l ∧
    List.Sorted RankLE (sortRank l) ∧
    (∀ k : Option ℚ × Option ℚ,
      (sortRank l).filter (fun r => decide (rankKey r = k)) =
        l.filter (fun r => decide (rankKey r = k))) ∧
    List.Pairwise (fun a b =>
      (a.row.congestionIndex = none → b.row.congestionIndex = none) ∧
      (a.row.congestionIndex = b.row.congestionIndex →
        a.distKm = none → b.distKm = none)) (sortRank l) := by
  haveI : IsTotal RankedRow RankLE := ⟨rankLE_total⟩
  haveI : IsTrans RankedRow RankLE := ⟨rankLE_trans⟩
  exact ⟨rfl, List.perm_insertionSort RankLE l,
    List.sorted_insertionSort RankLE l,
    fun k => filter_key_sortRank k l,
    List.Pairwise.imp (fun hab => leRank_null_last hab)
      (List.sorted_insertionSort RankLE l)⟩

theorem c6_ranking_sort_witness :
    (sortRank [rrA, rrB]).filter
        (fun r => decide (rankKey r = (some (1/4), some 3))) =
      [rrA, rrB].filter
        (fun r => decide (rankKey r = (some (1/4), some 3))) :=
  (c6_ranking_sort [rrA, rrB]).2.2.2.1 (some (1/4), some 3)

/-- C7 counterexample: the query is passed to pandas `str.contains` with
its default `regex=True`, so the query "a.c" retains a row named "abc"
even though "a.c" is not a case-insensitive substring of "abc". -/
theorem c7_name_filter_regex_counterexample :
    name_filter "a.c" [rowAbc] = [rowAbc] ∧ substrCI "a.c" "abc" = false :=
  ⟨rfl, rfl⟩

/-- C7 (amended): the name filter treats the query as a case-insensitive
regular expression (`re.search` semantics); an empty query retains every
row, rows with a null name never match a non-empty query, and for queries
containing no regex metacharacter the filter coincides exactly with
case-insensitive substring containment. -/
theorem c7_name_filter_semantics (q : String) (rows : List HospitalRow) :
    (q = "" → name_filter q rows = rows) ∧
    (q ≠ "" → name_filter q rows = rows.filter (fun r =>
      match r.dutyName with
      | none => false
      | some n => strContainsRegexCI q n)) ∧
    (q ≠ "" → ∀ r ∈ name_filter q rows, r.dutyName ≠ none) ∧
    (q ≠ "" → (∀ c ∈ q.data, c ∉ pyRegexMeta) →
      name_filter q rows = rows.filter (fun r =>
        match r.dutyName with
        | none => false
        | some n => substrCI q n)) ∧
    (∀ n : String, substrCI q n = true ↔
      ∃ pre post, n.data.map Char.toLower =
        pre ++ q.data.map Char.toLower ++ post) := by
  refine ⟨?_, ?_, ?_, ?_, ?_⟩
  · intro hq
    simp [name_filter, hq]
  · intro hq
    simp [name_filter, hq]
  · intro hq r hr
    rw [name_filter, if_neg hq] at hr
    have hp := (List.mem_filter.mp hr).2
    rcases hn : r.dutyName with _ | n
    · rw [hn] at hp
      cases hp
    · simp [hn]
  · intro hq hmeta
    rw [name_filter, if_neg hq]
    refine List.filter_congr ?_
    intro r _
    rcases hn : r.dutyName with _ | n
    · rfl
    · have hdot : ∀ c ∈ q.data, c ≠ '.' := by
        intro c hc hceq
        exact hmeta c hc (hceq ▸ List.mem_cons_self '.' _)
      show strContainsRegexCI q n = substrCI q n
      rw [strContainsRegexCI, substrCI, reSearch_eq_litSearch q.data n.data hdot]
  · intro n
    exact litSearch_iff q.data n.data

theorem c7_name_filter_semantics_witness :
    name_filter "ab" [rowAbc] = [rowAbc].filter (fun r =>
      match r.dutyName with
      | none => false
      | some n => substrCI "ab" n) :=
  (c7_name_filter_semantics "ab" [rowAbc]).2.2.2.1 (by decide) (by decide)

end ERDash
